import Mathlib

/-!
# Verification of the pluts-emulator value-preservation validator

Shallow embedding of the repository's phase-1 validation code, centred on
`validateValuePreservation` (src/validation/valuePreservation.ts, multi-asset
version) together with the `ValidationResult` helpers of
src/validation/types.ts.  Quantities are `bigint` in the source and are
modelled as `Int`; JavaScript `Map`s are modelled as insertion-ordered
association lists, which is exactly the observable behaviour of a JS `Map`
(`set` updates a present key in place, otherwise appends; iteration follows
insertion order).  `Value` is the plu-ts multi-asset value: a list of policy
entries, where the base-currency (lovelace) quantity is carried by an entry
whose policy id is the empty string, and the `lovelaces` getter reads that
entry (the repository's own comments document this encoding).
-/

namespace PlutsEmulator

/-- One hexadecimal digit, lowercase, as produced by `Buffer.toString('hex')`. -/
def hexChar (n : Nat) : Char :=
  if n < 10 then Char.ofNat (48 + n) else Char.ofNat (87 + n)

/-- Two-digit lowercase hex rendering of one byte. -/
def byteToHex (b : Nat) : String :=
  String.mk [hexChar (b / 16 % 16), hexChar (b % 16)]

/-- Model of `Buffer.from(bytes).toString('hex')`. -/
def bytesToHex (bs : List Nat) : String :=
  String.join (bs.map byteToHex)

/-- One `{ name, quantity }` asset entry of a plu-ts `Value` policy entry. -/
structure AssetEntry where
  name : List Nat
  quantity : Int
deriving DecidableEq, Repr

/-- One `{ policy, assets }` entry of a plu-ts `Value`.  The policy id is the
string returned by `policy.toString()`: 56 hex characters for a `Hash28`, and
the empty string for the distinguished lovelace entry. -/
structure PolicyEntry where
  policy : String
  assets : List AssetEntry
deriving DecidableEq, Repr

/-- A plu-ts multi-asset `Value`: the underlying list of policy entries. -/
structure Value where
  map : List PolicyEntry
deriving DecidableEq, Repr

/-- The plu-ts `Value.lovelaces` getter: the quantity held by the entry whose
policy id is empty (zero when no such entry exists). -/
def Value.lovelaces (v : Value) : Int :=
  match v.map.find? (fun e => e.policy == "") with
  | some e => (e.assets.map (fun a => a.quantity)).sum
  | none => 0

/-- Model of plu-ts `Value.lovelaces(n)`: a value holding only the base currency. -/
def Value.onlyLovelaces (n : Int) : Value :=
  ⟨[⟨"", [⟨[], n⟩]⟩]⟩

/-- A transaction output; `validateValuePreservation` reads only its value. -/
structure TxOut where
  address : String
  value : Value
deriving DecidableEq, Repr

/-- The transaction body fields read by phase-1 validation.  Inputs are kept
as the strings produced by `input.utxoRef.toString()`, which is how the code
keys the ledger map. -/
structure TxBody where
  inputs : List String
  outputs : List TxOut
  fee : Int
  mint : Option Value
deriving DecidableEq, Repr

/-- A transaction (witnesses are irrelevant to phase-1 value checks). -/
structure Tx where
  body : TxBody
deriving DecidableEq, Repr

/-- The ledger snapshot `Map<string, { resolved: { value: Value } }>`,
modelled as an association list from reference string to the resolved
output's value. -/
abbrev Ledger := List (String × Value)

/-- Model of `ledgerUtxos.get(ref)` (first binding wins, as in a JS `Map`). -/
def Ledger.resolve (l : Ledger) (ref : String) : Option Value :=
  (l.find? (fun p => p.1 == ref)).map (fun p => p.2)

/-! ## JS `Map<AssetId, bigint>` model -/

/-- Asset identifiers: the literal key `"lovelaces"` or `policy ++ "." ++ hex
name` as produced by `getAssetId`. -/
abbrev AssetId := String

/-- An insertion-ordered `Map<AssetId, bigint>`. -/
abbrev AssetMap := List (AssetId × Int)

/-- Model of `map.get(k)`. -/
def AssetMap.get (m : AssetMap) (k : AssetId) : Option Int :=
  (m.find? (fun p => p.1 == k)).map (fun p => p.2)

/-- Model of `map.set(k, v)`: replaces the binding in place when the key is present,
otherwise appends it, exactly as a JS `Map` behaves observably. -/
def AssetMap.set (m : AssetMap) (k : AssetId) (v : Int) : AssetMap :=
  match m with
  | [] => [(k, v)]
  | (k', v') :: rest =>
    if k' == k then (k, v) :: rest else (k', v') :: AssetMap.set rest k v

/-- Model of `[...map.keys()]` in iteration (insertion) order. -/
def AssetMap.keys (m : AssetMap) : List AssetId :=
  m.map (fun p => p.1)

/-- Model of `map.get(k) || 0n`. -/
def amountAt (m : AssetMap) (k : AssetId) : Int :=
  (m.get k).getD 0

/-! ## src/validation/types.ts -/

/-- Direction of an imbalance as rendered in the failure message. -/
inductive Direction where
  | creating
  | destroying
deriving DecidableEq, Repr

/-- The error strings produced by `validateValuePreservation`, abstracted to
their structure (the numeric rendering inside a message — floating-point
division by 1e6 and `toFixed` — is presentation only; every compared number
is also carried verbatim in the details record below). -/
inductive ErrorMsg where
  /-- The message "Cannot validate value preservation: missing inputs in ledger". -/
  | missingInputsMsg
  /-- The message "Cannot mint or burn lovelaces (ADA)". -/
  | cannotMintBurnAdaMsg
  /-- The messages "Value not preserved: destroying/creating ... (of token ...)". -/
  | notPreserved (dir : Direction) (isAda : Bool) (assetName : String)
  /-- Modelled from the spec: structural rule of the phase-1 pipeline. -/
  | structuralMsg
  /-- Modelled from the spec: "InsufficientFee(required, actual)". -/
  | insufficientFeeMsg
deriving DecidableEq, Repr

/-- The structured record attached to a per-asset violation failure
(`checkAssetPreservation`'s details object; every field the code stringifies
is kept as the underlying integer). -/
structure AssetViolationDetail where
  asset : AssetId
  inputAmount : Int
  outputAmount : Int
  mintedAmount : Int
  burnedAmount : Int
  feeAmount : Int
  leftSide : Int
  rightSide : Int
  difference : Int
deriving DecidableEq, Repr

/-- The `details?: Record<string, any>` payloads actually constructed by the
validation code (plus the payloads of the spec-modelled pipeline rules). -/
inductive Details where
  | missingInputs (refs : List String)
  | mintBurnAda (attemptedMint attemptedBurn : Int)
  | assetViolation (d : AssetViolationDetail)
  /-- Modelled from the spec: counts attached to a structural failure. -/
  | structuralDetail (numInputs numOutputs : Nat)
  /-- Modelled from the spec: "InsufficientFee(required, actual)". -/
  | insufficientFee (required actual : Int)
deriving DecidableEq, Repr

/-- The `ValidationResult` interface of src/validation/types.ts. -/
structure ValidationResult where
  isValid : Bool
  error : Option ErrorMsg
  details : Option Details
deriving DecidableEq, Repr

/-- Model of `validationSuccess()`. -/
def validationSuccess : ValidationResult :=
  { isValid := true, error := none, details := none }

/-- Model of `validationFailure(error, details?)`. -/
def validationFailure (e : ErrorMsg) (d : Option Details) : ValidationResult :=
  { isValid := false, error := some e, details := d }

/-! ## src/validation/valuePreservation.ts (multi-asset version) -/

/-- Model of `getAssetId(policyId, assetName)`: the policy id, a dot, and the hex rendering of the asset name. -/
def getAssetId (policyId : String) (assetName : List Nat) : AssetId :=
  policyId ++ "." ++ bytesToHex assetName

/-- Model of `addToAssetMap(map, id, q)`: add `q` to the current quantity (missing
entries count as zero). -/
def addToAssetMap (m : AssetMap) (assetId : AssetId) (quantity : Int) : AssetMap :=
  m.set assetId ((m.get assetId).getD 0 + quantity)

/-- Inner loop of `addValueToMap` over one policy entry's assets: entries
with an empty (zero-length) asset name are skipped. -/
def addAssetsOfPolicy (policyId : String) (assets : List AssetEntry)
    (multiply : Int) (m : AssetMap) : AssetMap :=
  assets.foldl
    (fun m a =>
      if a.name.length == 0 then m
      else addToAssetMap m (getAssetId policyId a.name) (a.quantity * multiply))
    m

/-- Model of `addValueToMap(value, assetMap, multiply = 1)`: first adds the
`lovelaces` quantity under the key `"lovelaces"`, then walks the policy
entries, skipping entries with an empty policy id (the lovelace entry, which
was already counted) and assets with an empty name. -/
def addValueToMap (value : Value) (m : AssetMap) (multiply : Int) : AssetMap :=
  (value.map).foldl
    (fun m pe =>
      if pe.policy == "" then m
      else addAssetsOfPolicy pe.policy pe.assets multiply m)
    (addToAssetMap m "lovelaces" (value.lovelaces * multiply))

/-- Model of `checkAssetPreservation`: the per-asset equation
`inputs + minted = outputs + burned + (fee when the asset is ADA)`;
on imbalance returns the structured failure, otherwise `null`. -/
def checkAssetPreservation (assetId : AssetId)
    (inputAssets outputAssets mintedAssets burnedAssets : AssetMap)
    (transactionFee : Int) : Option ValidationResult :=
  let inputAmount := amountAt inputAssets assetId
  let outputAmount := amountAt outputAssets assetId
  let mintedAmount := amountAt mintedAssets assetId
  let burnedAmount := amountAt burnedAssets assetId
  let feeAmount := if assetId == "lovelaces" then transactionFee else 0
  let leftSide := inputAmount + mintedAmount
  let rightSide := outputAmount + burnedAmount + feeAmount
  if leftSide ≠ rightSide then
    let difference := leftSide - rightSide
    let isAda := assetId == "lovelaces"
    let assetName := if isAda then "ADA" else assetId
    let dir := if difference > 0 then Direction.destroying else Direction.creating
    some (validationFailure (ErrorMsg.notPreserved dir isAda assetName)
      (some (Details.assetViolation
        { asset := assetId
          inputAmount := inputAmount
          outputAmount := outputAmount
          mintedAmount := mintedAmount
          burnedAmount := burnedAmount
          feeAmount := feeAmount
          leftSide := leftSide
          rightSide := rightSide
          difference := difference })))
  else
    none

/-- One step of the input-resolution loop: an unresolved reference is pushed
onto `missingInputs`, a resolved one is accumulated into `inputAssets`. -/
def resolveInputsStep (ledgerUtxos : Ledger) (acc : AssetMap × List String)
    (ref : String) : AssetMap × List String :=
  match ledgerUtxos.resolve ref with
  | none => (acc.1, acc.2 ++ [ref])
  | some v => (addValueToMap v acc.1 1, acc.2)

/-- The `inputAssets` map accumulated by the input loop. -/
def inputAssetsOf (tx : Tx) (ledgerUtxos : Ledger) : AssetMap :=
  (tx.body.inputs.foldl (resolveInputsStep ledgerUtxos) ([], [])).1

/-- The `missingInputs` list accumulated by the input loop. -/
def missingInputsOf (tx : Tx) (ledgerUtxos : Ledger) : List String :=
  (tx.body.inputs.foldl (resolveInputsStep ledgerUtxos) ([], [])).2

/-- The `outputAssets` map accumulated over `tx.body.outputs`. -/
def outputAssetsOf (tx : Tx) : AssetMap :=
  tx.body.outputs.foldl (fun m o => addValueToMap o.value m 1) []

/-- One step of the mint loop: entries with an empty policy id are skipped;
per asset (skipping empty names), a positive quantity goes to the minted map
and a negative one to the burned map, stored positively. -/
def processMintEntry (acc : AssetMap × AssetMap) (pe : PolicyEntry) :
    AssetMap × AssetMap :=
  if pe.policy == "" then acc
  else
    pe.assets.foldl
      (fun acc a =>
        if a.name.length == 0 then acc
        else
          if a.quantity > 0 then
            (addToAssetMap acc.1 (getAssetId pe.policy a.name) a.quantity, acc.2)
          else if a.quantity < 0 then
            (acc.1, addToAssetMap acc.2 (getAssetId pe.policy a.name) (-a.quantity))
          else acc)
      acc

/-- The `(mintedAssets, burnedAssets)` pair accumulated from `tx.body.mint`
(both empty when the mint field is absent). -/
def mintPairOf (tx : Tx) : AssetMap × AssetMap :=
  match tx.body.mint with
  | some mv => mv.map.foldl processMintEntry ([], [])
  | none => ([], [])

/-- Model of the `new Set([...])` spread: deduplication keeping first occurrences, in
insertion order. -/
def insertUnique (l : List AssetId) (x : AssetId) : List AssetId :=
  if x ∈ l then l else l ++ [x]

/-- The iteration order of a JS `Set` built from a concatenation of keys. -/
def setOfList (l : List AssetId) : List AssetId :=
  l.foldl insertUnique []

/-- The `allAssetIds` set: keys of the input, output, minted and burned maps
in insertion order. -/
def allAssetIdsOf (tx : Tx) (ledgerUtxos : Ledger) : List AssetId :=
  setOfList ((inputAssetsOf tx ledgerUtxos).keys ++ (outputAssetsOf tx).keys
    ++ (mintPairOf tx).1.keys ++ (mintPairOf tx).2.keys)

/-- Model of `validateValuePreservation(tx, ledgerUtxos)`.  Branches, in the source's
order: the missing-input failure; the ADA-mint check (performed only when the
mint field is present); then the per-asset loop which returns the first
violation found, or success.  The `try`/`catch` wrapper of the source has no
effect in the model: every operation in the body is total. -/
def validateValuePreservation (tx : Tx) (ledgerUtxos : Ledger) : ValidationResult :=
  if 0 < (missingInputsOf tx ledgerUtxos).length then
    validationFailure ErrorMsg.missingInputsMsg
      (some (Details.missingInputs (missingInputsOf tx ledgerUtxos)))
  else if tx.body.mint.isSome
      && (amountAt (mintPairOf tx).1 "lovelaces" != 0
          || amountAt (mintPairOf tx).2 "lovelaces" != 0) then
    validationFailure ErrorMsg.cannotMintBurnAdaMsg
      (some (Details.mintBurnAda (amountAt (mintPairOf tx).1 "lovelaces")
        (amountAt (mintPairOf tx).2 "lovelaces")))
  else
    match (allAssetIdsOf tx ledgerUtxos).findSome?
        (fun a => checkAssetPreservation a (inputAssetsOf tx ledgerUtxos)
          (outputAssetsOf tx) (mintPairOf tx).1 (mintPairOf tx).2 tx.body.fee) with
    | some err => err
    | none => validationSuccess

/-- The input references that do not resolve in the ledger snapshot, in
input order. -/
def unresolvedRefs (tx : Tx) (ledgerUtxos : Ledger) : List String :=
  tx.body.inputs.filter (fun r => (ledgerUtxos.resolve r).isNone)

/-- Left side of the per-asset equation as accumulated by the code. -/
def leftTotalAt (tx : Tx) (l : Ledger) (a : AssetId) : Int :=
  amountAt (inputAssetsOf tx l) a + amountAt (mintPairOf tx).1 a

/-- Right side of the per-asset equation as accumulated by the code (it does
not depend on the ledger; the parameter is kept for symmetry). -/
def rightTotalAt (tx : Tx) (_l : Ledger) (a : AssetId) : Int :=
  amountAt (outputAssetsOf tx) a + amountAt (mintPairOf tx).2 a
    + (if a == "lovelaces" then tx.body.fee else 0)

/-- The per-asset equation, as a boolean. -/
def balancedAt (tx : Tx) (l : Ledger) (a : AssetId) : Bool :=
  leftTotalAt tx l a == rightTotalAt tx l a

/-! ## The value-preservation equation in the specification's words

These definitions follow the specification text, for comparison with the
code: "for every asset id appearing in inputs, outputs, or the mint field,
compute `inputs_total[asset] + minted[asset] == outputs_total[asset] +
(asset == base_currency ? fee : 0)`", with minted/burned the positive and
negative components of the mint bundle.  Every entry of a value contributes:
the base currency through the distinguished id, and each (policy, name) pair
— empty names included — through its composite id. -/

/-- The asset ids appearing in one value, by the spec's reading: the base
currency plus every (policy, name) pair carried by a non-base entry. -/
def specIdsOfValue (v : Value) : List AssetId :=
  "lovelaces" ::
    v.map.foldr
      (fun pe acc =>
        (if pe.policy == "" then []
         else pe.assets.map (fun a => getAssetId pe.policy a.name)) ++ acc)
      []

/-- The quantity a value assigns to an asset id, by the spec's reading of an
asset bundle: the lovelace getter for the base currency, and the sum of the
matching (policy, name) entries otherwise. -/
def specBundleAt (v : Value) (a : AssetId) : Int :=
  if a == "lovelaces" then v.lovelaces
  else
    v.map.foldr
      (fun pe acc =>
        (if pe.policy == "" then 0
         else ((pe.assets.filter
            (fun x => getAssetId pe.policy x.name == a)).map
              (fun x => x.quantity)).sum) + acc)
      0

/-- Spec-side total over the transaction's resolved inputs. -/
def specInputsTotal (tx : Tx) (l : Ledger) (a : AssetId) : Int :=
  (tx.body.inputs.map
    (fun r => match l.resolve r with
      | some v => specBundleAt v a
      | none => 0)).sum

/-- Spec-side total over the transaction's outputs. -/
def specOutputsTotal (tx : Tx) (a : AssetId) : Int :=
  (tx.body.outputs.map (fun o => specBundleAt o.value a)).sum

/-- Spec-side signed mint bundle at an asset id. -/
def specMintAt (tx : Tx) (a : AssetId) : Int :=
  match tx.body.mint with
  | some mv => specBundleAt mv a
  | none => 0

/-- All asset ids appearing in the inputs, outputs, or mint field. -/
def specIds (tx : Tx) (l : Ledger) : List AssetId :=
  setOfList
    ((tx.body.inputs.foldr
        (fun r acc => (match l.resolve r with
          | some v => specIdsOfValue v
          | none => []) ++ acc) [])
      ++ tx.body.outputs.foldr (fun o acc => specIdsOfValue o.value ++ acc) []
      ++ (match tx.body.mint with
          | some mv => specIdsOfValue mv
          | none => []))

/-- The claim's equation, literally: for every asset id appearing in the
inputs, outputs, or mint field, inputs plus the positive mint component
equals outputs plus the negative mint component plus the fee for the base
currency. -/
def specEquationHolds (tx : Tx) (l : Ledger) : Bool :=
  (specIds tx l).all
    (fun a =>
      specInputsTotal tx l a + max (specMintAt tx a) 0
        == specOutputsTotal tx a + max (-(specMintAt tx a)) 0
            + (if a == "lovelaces" then tx.body.fee else 0))

/-! ## Components of the repository outside the extracted sources

The Emulator pipeline (`submitTx`/`validateTx`), the fee rule, and the
slot/time arithmetic live in files of the repository that are not among the
extracted sources (only their tests are).  They are modelled from the
specification below, and each such definition is marked so. -/

/-- Modelled from the spec: the phase-1 pipeline of the Emulator
(`validateTx`, not among the extracted sources).  Rule 1 is the structural
rule — at least one input and one output, and every input must resolve;
rules 2–4 (size, fee, minimum deposit) depend on the external serializer and
are taken as an abstract check; rule 5 is the extracted
`validateValuePreservation`. -/
def phase1Validate (sizeFeeDepositRules : Tx → Option ValidationResult)
    (tx : Tx) (l : Ledger) : ValidationResult :=
  if tx.body.inputs.length == 0 || tx.body.outputs.length == 0 then
    validationFailure ErrorMsg.structuralMsg
      (some (Details.structuralDetail tx.body.inputs.length tx.body.outputs.length))
  else if 0 < (unresolvedRefs tx l).length then
    validationFailure ErrorMsg.missingInputsMsg
      (some (Details.missingInputs (unresolvedRefs tx l)))
  else
    match sizeFeeDepositRules tx with
    | some f => f
    | none => validateValuePreservation tx l

/-- Modelled from the spec and tests/min-fee.test.ts: the minimum fee
`per_byte_fee * serialized_size + fixed_fee` (the serialized size comes from
the external serializer and is taken as a number). -/
def calculateMinFee (txFeePerByte txFeeFixed txSize : Int) : Int :=
  txFeePerByte * txSize + txFeeFixed

/-- Modelled from the spec: the fee rule of the phase-1 pipeline — reject
with `InsufficientFee(required, actual)` exactly when the transaction's fee
is strictly below the computed minimum. -/
def feeRule (txFeePerByte txFeeFixed txSize fee : Int) : Option ValidationResult :=
  if fee < calculateMinFee txFeePerByte txFeeFixed txSize then
    some (validationFailure ErrorMsg.insufficientFeeMsg
      (some (Details.insufficientFee (calculateMinFee txFeePerByte txFeeFixed txSize) fee)))
  else
    none

/-- Genesis parameters of the clock (start time and slot length in
milliseconds, as in `defaultMainnetGenesisInfos`). -/
structure GenesisInfos where
  systemStartPosixMs : Int
  slotLengthMs : Int
deriving DecidableEq, Repr

/-- Modelled from the spec: `slot_to_time(slot) = start_time +
slot * slot_length` in exact integer arithmetic (the Emulator's
`fromSlotToPosix`, not among the extracted sources). -/
def slotToTime (g : GenesisInfos) (slot : Nat) : Int :=
  g.systemStartPosixMs + (slot : Int) * g.slotLengthMs

/-- Modelled from the spec: `time_to_slot` is the inverse floor-division and
fails with `InvalidTime` (here `none`) when the time precedes the system
start. -/
def timeToSlot (g : GenesisInfos) (time : Int) : Option Nat :=
  if time < g.systemStartPosixMs then none
  else some ((time - g.systemStartPosixMs) / g.slotLengthMs).toNat

/-! ## Basic lemmas about the map model -/

theorem AssetMap.get_set_ne (m : AssetMap) (k k' : AssetId) (v : Int)
    (h : k' ≠ k) : (m.set k v).get k' = m.get k' := by
  have hkk' : (k == k') = false := by
    simp [beq_iff_eq]
    exact fun he => h he.symm
  induction m with
  | nil =>
    simp [AssetMap.set, AssetMap.get, List.find?, hkk']
  | cons p rest ih =>
    obtain ⟨k₀, v₀⟩ := p
    by_cases hk : k₀ = k
    · subst hk
      simp [AssetMap.set, AssetMap.get, List.find?, hkk']
    · have hk₀ : (k₀ == k) = false := by simp [beq_iff_eq, hk]
      simp only [AssetMap.set, hk₀, Bool.false_eq_true, if_false]
      by_cases hk' : k₀ = k'
      · subst hk'
        simp [AssetMap.get, List.find?]
      · have hne : (k₀ == k') = false := by simp [beq_iff_eq, hk']
        simp only [AssetMap.get, List.find?, hne] at ih ⊢
        exact ih

theorem addToAssetMap_get_ne (m : AssetMap) (k k' : AssetId) (q : Int)
    (h : k' ≠ k) : (addToAssetMap m k q).get k' = m.get k' := by
  unfold addToAssetMap
  exact AssetMap.get_set_ne m k k' _ h

theorem getAssetId_ne_lovelaces (p : String) (n : List Nat) :
    getAssetId p n ≠ "lovelaces" := by
  intro h
  have hdata : (getAssetId p n).data = "lovelaces".data := by rw [h]
  have hmem : '.' ∈ "lovelaces".data := by
    unfold getAssetId at hdata
    rw [String.data_append, String.data_append] at hdata
    rw [← hdata]
    refine List.mem_append.mpr (Or.inl ?_)
    exact List.mem_append.mpr (Or.inr (by simp))
  simp at hmem

/-! ## The base currency never enters the minted or burned maps -/

theorem processMintEntry_get_lovelaces (acc : AssetMap × AssetMap)
    (pe : PolicyEntry) :
    (processMintEntry acc pe).1.get "lovelaces" = acc.1.get "lovelaces"
      ∧ (processMintEntry acc pe).2.get "lovelaces" = acc.2.get "lovelaces" := by
  unfold processMintEntry
  by_cases hp : pe.policy == ""
  · simp [hp]
  · simp only [hp, Bool.false_eq_true, if_false]
    induction pe.assets generalizing acc with
    | nil => simp
    | cons a rest ih =>
      simp only [List.foldl_cons]
      by_cases hn : a.name.length == 0
      · simp only [hn, if_true]
        exact ih acc
      · simp only [hn, Bool.false_eq_true, if_false]
        by_cases hq : a.quantity > 0
        · simp only [hq, if_true]
          obtain ⟨ih1, ih2⟩ :=
            ih (addToAssetMap acc.1 (getAssetId pe.policy a.name) a.quantity, acc.2)
          constructor
          · rw [ih1]
            exact addToAssetMap_get_ne _ _ _ _
              (getAssetId_ne_lovelaces pe.policy a.name).symm
          · rw [ih2]
        · simp only [hq, if_false]
          by_cases hq' : a.quantity < 0
          · simp only [hq', if_true]
            obtain ⟨ih1, ih2⟩ :=
              ih (acc.1, addToAssetMap acc.2 (getAssetId pe.policy a.name) (-a.quantity))
            constructor
            · rw [ih1]
            · rw [ih2]
              exact addToAssetMap_get_ne _ _ _ _
                (getAssetId_ne_lovelaces pe.policy a.name).symm
          · simp only [hq', if_false]
            exact ih acc

theorem foldl_processMint_get_lovelaces (entries : List PolicyEntry) :
    ∀ acc : AssetMap × AssetMap,
      (entries.foldl processMintEntry acc).1.get "lovelaces"
          = acc.1.get "lovelaces"
        ∧ (entries.foldl processMintEntry acc).2.get "lovelaces"
          = acc.2.get "lovelaces" := by
  induction entries with
  | nil => intro acc; simp
  | cons pe rest ih =>
    intro acc
    simp only [List.foldl_cons]
    have h1 := processMintEntry_get_lovelaces acc pe
    have h2 := ih (processMintEntry acc pe)
    exact ⟨h2.1.trans h1.1, h2.2.trans h1.2⟩

theorem mintPairOf_get_lovelaces (tx : Tx) :
    (mintPairOf tx).1.get "lovelaces" = none
      ∧ (mintPairOf tx).2.get "lovelaces" = none := by
  unfold mintPairOf
  cases h : tx.body.mint with
  | none => simp [AssetMap.get]
  | some mv =>
    have := foldl_processMint_get_lovelaces mv.map (([], []) : AssetMap × AssetMap)
    simpa [AssetMap.get] using this

/-! ## The missing-inputs list is the list of unresolved references -/

theorem foldl_resolveInputs_snd (l : Ledger) (inputs : List String) :
    ∀ (m : AssetMap) (miss : List String),
      (inputs.foldl (resolveInputsStep l) (m, miss)).2
        = miss ++ inputs.filter (fun r => (l.resolve r).isNone) := by
  induction inputs with
  | nil => intro m miss; simp
  | cons r rest ih =>
    intro m miss
    simp only [List.foldl_cons, resolveInputsStep]
    cases h : l.resolve r with
    | none =>
      simp only [List.filter_cons, h, Option.isNone_none, if_true]
      rw [ih]
      simp
    | some v =>
      simp only [List.filter_cons, h, Option.isNone_some]
      rw [ih]
      simp

theorem missingInputsOf_eq_unresolved (tx : Tx) (l : Ledger) :
    missingInputsOf tx l = unresolvedRefs tx l := by
  unfold missingInputsOf unresolvedRefs
  simpa using foldl_resolveInputs_snd l tx.body.inputs [] []

/-! ## The first-some / first-true structure of the asset loop -/

theorem findSome?_eq_none_iff {α β : Type} (f : α → Option β) (l : List α) :
    l.findSome? f = none ↔ ∀ a ∈ l, f a = none := by
  induction l with
  | nil => simp [List.findSome?]
  | cons a rest ih =>
    cases h : f a with
    | some b => simp [List.findSome?, h]
    | none => simp [List.findSome?, h, ih]

theorem exists_of_findSome?_some {α β : Type} (f : α → Option β) (l : List α)
    (b : β) (h : l.findSome? f = some b) : ∃ a, a ∈ l ∧ f a = some b := by
  induction l with
  | nil => simp [List.findSome?] at h
  | cons a rest ih =>
    cases ha : f a with
    | some c =>
      simp only [List.findSome?, ha] at h
      exact ⟨a, List.mem_cons_self a rest, ha.trans h⟩
    | none =>
      simp only [List.findSome?, ha] at h
      obtain ⟨x, hx, hfx⟩ := ih h
      exact ⟨x, List.mem_cons_of_mem a hx, hfx⟩

theorem findSome?_eq_of_find?_isSome {α β : Type} (f : α → Option β)
    (l : List α) (a : α)
    (h : l.find? (fun x => (f x).isSome) = some a) : l.findSome? f = f a := by
  induction l with
  | nil => simp [List.find?] at h
  | cons x rest ih =>
    cases hx : f x with
    | some b =>
      have hstep : List.find? (fun y => (f y).isSome) (x :: rest) = some x := by
        simp [List.find?, hx]
      rw [hstep] at h
      cases h
      simp [List.findSome?, hx]
    | none =>
      have hstep : List.find? (fun y => (f y).isSome) (x :: rest)
          = List.find? (fun y => (f y).isSome) rest := by
        simp [List.find?, hx]
      rw [hstep] at h
      simp only [List.findSome?, hx]
      exact ih h

theorem find?_congr_pred {α : Type} (p q : α → Bool)
    (hpq : ∀ a, p a = q a) : ∀ l : List α, l.find? p = l.find? q := by
  intro l
  induction l with
  | nil => simp
  | cons a rest ih =>
    by_cases h : p a = true
    · rw [List.find?_cons_of_pos _ h, List.find?_cons_of_pos _ ((hpq a) ▸ h)]
    · have h' : p a = false := by revert h; cases p a <;> simp
      rw [List.find?_cons_of_neg _ (by simp [h']),
        List.find?_cons_of_neg _ (by simp [(hpq a) ▸ h']), ih]

/-! ## Structure of the per-asset check -/

theorem checkAssetPreservation_eq_none_iff (a : AssetId)
    (i o mm bb : AssetMap) (fee : Int) :
    checkAssetPreservation a i o mm bb fee = none
      ↔ amountAt i a + amountAt mm a
          = amountAt o a + amountAt bb a
              + (if a == "lovelaces" then fee else 0) := by
  unfold checkAssetPreservation
  by_cases h : amountAt i a + amountAt mm a
      = amountAt o a + amountAt bb a + (if a == "lovelaces" then fee else 0)
  · simp [h]
  · simp [h]

theorem checkAssetPreservation_eq_some (a : AssetId) (i o mm bb : AssetMap)
    (fee : Int) (r : ValidationResult)
    (h : checkAssetPreservation a i o mm bb fee = some r) :
    r = validationFailure
        (ErrorMsg.notPreserved
          (if 0 < (amountAt i a + amountAt mm a)
              - (amountAt o a + amountAt bb a
                  + (if a == "lovelaces" then fee else 0))
           then Direction.destroying else Direction.creating)
          (a == "lovelaces")
          (if a == "lovelaces" then "ADA" else a))
        (some (Details.assetViolation
          { asset := a
            inputAmount := amountAt i a
            outputAmount := amountAt o a
            mintedAmount := amountAt mm a
            burnedAmount := amountAt bb a
            feeAmount := if a == "lovelaces" then fee else 0
            leftSide := amountAt i a + amountAt mm a
            rightSide := amountAt o a + amountAt bb a
                + (if a == "lovelaces" then fee else 0)
            difference := (amountAt i a + amountAt mm a)
                - (amountAt o a + amountAt bb a
                    + (if a == "lovelaces" then fee else 0)) }))
      ∧ amountAt i a + amountAt mm a
          ≠ amountAt o a + amountAt bb a
              + (if a == "lovelaces" then fee else 0) := by
  unfold checkAssetPreservation at h
  by_cases hb : amountAt i a + amountAt mm a
      = amountAt o a + amountAt bb a + (if a == "lovelaces" then fee else 0)
  · simp [hb] at h
  · simp only [hb, ne_eq, not_false_eq_true, if_true] at h
    injection h with h'
    exact ⟨h'.symm, hb⟩

theorem checkAssetPreservation_balanced_iff (tx : Tx) (l : Ledger)
    (a : AssetId) :
    checkAssetPreservation a (inputAssetsOf tx l) (outputAssetsOf tx)
        (mintPairOf tx).1 (mintPairOf tx).2 tx.body.fee = none
      ↔ balancedAt tx l a = true := by
  rw [checkAssetPreservation_eq_none_iff]
  unfold balancedAt leftTotalAt rightTotalAt
  simp [beq_iff_eq]

theorem checkAssetPreservation_isSome_eq (tx : Tx) (l : Ledger) (a : AssetId) :
    (checkAssetPreservation a (inputAssetsOf tx l) (outputAssetsOf tx)
        (mintPairOf tx).1 (mintPairOf tx).2 tx.body.fee).isSome
      = !(balancedAt tx l a) := by
  cases h : checkAssetPreservation a (inputAssetsOf tx l) (outputAssetsOf tx)
      (mintPairOf tx).1 (mintPairOf tx).2 tx.body.fee with
  | none =>
    have := (checkAssetPreservation_balanced_iff tx l a).mp h
    simp [this]
  | some r =>
    have hne : ¬(balancedAt tx l a = true) := by
      intro hb
      have := (checkAssetPreservation_balanced_iff tx l a).mpr hb
      rw [this] at h
      cases h
    simp only [Option.isSome_some]
    revert hne
    cases balancedAt tx l a <;> simp

/-! ## Reduction to the asset loop when every input resolves -/

theorem validate_eq_loop (tx : Tx) (l : Ledger)
    (h : missingInputsOf tx l = []) :
    validateValuePreservation tx l
      = match (allAssetIdsOf tx l).findSome?
          (fun a => checkAssetPreservation a (inputAssetsOf tx l)
            (outputAssetsOf tx) (mintPairOf tx).1 (mintPairOf tx).2
            tx.body.fee) with
        | some err => err
        | none => validationSuccess := by
  have hm := mintPairOf_get_lovelaces tx
  have h1 : amountAt (mintPairOf tx).1 "lovelaces" = 0 := by
    unfold amountAt
    rw [hm.1]
    rfl
  have h2 : amountAt (mintPairOf tx).2 "lovelaces" = 0 := by
    unfold amountAt
    rw [hm.2]
    rfl
  unfold validateValuePreservation
  rw [h, h1, h2]
  simp

/-- The asset id carried by an asset-violation failure, when the result is
one. -/
def reportedAsset? (r : ValidationResult) : Option AssetId :=
  match r.details with
  | some (Details.assetViolation d) => some d.asset
  | _ => none

/-! ## Concrete transactions used as witnesses and counterexamples -/

/-- A 56-hex-character policy id (all `a`), lexicographically small. -/
def polAaa : String :=
  "aaaaaaaaaaaaaaaaaaaaaaaaaaaaaaaaaaaaaaaaaaaaaaaaaaaaaaaa"

/-- A 56-hex-character policy id (all `c`), lexicographically large. -/
def polCcc : String :=
  "cccccccccccccccccccccccccccccccccccccccccccccccccccccccc"

/-- A plain balanced transfer: 100 in, 99 out, fee 1. -/
def txPlain : Tx :=
  ⟨⟨["tx0#0"], [⟨"addr0", Value.onlyLovelaces 99⟩], 1, none⟩⟩

/-- The ledger resolving `txPlain`'s input. -/
def ledgerPlain : Ledger := [("tx0#0", Value.onlyLovelaces 100)]

/-- A transaction whose only imbalance sits in an output asset entry with an
empty (zero-length) asset name: lovelaces balance exactly, but the output
claims 5 units of `(polAaa, "")` that no input or mint provides. -/
def txEmptyName : Tx :=
  ⟨⟨["tx1#0"],
    [⟨"addr1", ⟨[⟨"", [⟨[], 100⟩]⟩, ⟨polAaa, [⟨[], 5⟩]⟩]⟩⟩],
    0, none⟩⟩

/-- The ledger resolving `txEmptyName`'s input. -/
def ledgerEmptyName : Ledger := [("tx1#0", Value.onlyLovelaces 100)]

/-- A transaction that mints 50 000 000 lovelaces while its lovelace inputs,
outputs and fee balance without the mint (100 000 000 in, 100 000 000 out,
fee 0). -/
def txMintAda : Tx :=
  ⟨⟨["tx2#0"], [⟨"addr2", Value.onlyLovelaces 100000000⟩], 0,
    some (Value.onlyLovelaces 50000000)⟩⟩

/-- The ledger resolving `txMintAda`'s input. -/
def ledgerMintAda : Ledger := [("tx2#0", Value.onlyLovelaces 100000000)]

/-- A transaction with one unresolved and one resolved input. -/
def txMissing : Tx :=
  ⟨⟨["absent#0", "tx3#0"], [⟨"addr3", Value.onlyLovelaces 100⟩], 0, none⟩⟩

/-- The ledger for `txMissing`: only its second input resolves. -/
def ledgerMissing : Ledger := [("tx3#0", Value.onlyLovelaces 100)]

/-- A transaction that silently destroys 10 lovelaces (100 in, 90 out,
fee 0). -/
def txDestroys : Tx :=
  ⟨⟨["tx4#0"], [⟨"addr4", Value.onlyLovelaces 90⟩], 0, none⟩⟩

/-- The ledger resolving `txDestroys`'s input. -/
def ledgerDestroys : Ledger := [("tx4#0", Value.onlyLovelaces 100)]

/-- The composite id of the token `(polCcc, [0x74])`. -/
def ccTokenId : AssetId := getAssetId polCcc [0x74]

/-- The composite id of the token `(polAaa, [0x74])`. -/
def aaTokenId : AssetId := getAssetId polAaa [0x74]

/-- A transaction violating preservation on two assets: the first input
carries 5 units of the `polCcc` token, the second 5 units of the `polAaa`
token, and the single output returns only the lovelaces; lovelaces balance,
both tokens are silently destroyed. -/
def txTwoTokens : Tx :=
  ⟨⟨["tx5#0", "tx5#1"], [⟨"addr5", Value.onlyLovelaces 10⟩], 0, none⟩⟩

/-- The ledger resolving `txTwoTokens`'s inputs: the `polCcc` token is
encountered before the `polAaa` one. -/
def ledgerTwoTokens : Ledger :=
  [("tx5#0", ⟨[⟨"", [⟨[], 10⟩]⟩, ⟨polCcc, [⟨[0x74], 5⟩]⟩]⟩),
   ("tx5#1", ⟨[⟨"", [⟨[], 0⟩]⟩, ⟨polAaa, [⟨[0x74], 5⟩]⟩]⟩)]

/-- A transaction whose only imbalance sits in empty-policy entries: the
single output carries 101 lovelaces through an empty-policy entry against
100 lovelaces of input, fee 0. -/
def txOnlyEmptyPolicy : Tx :=
  ⟨⟨["tx6#0"], [⟨"addr6", ⟨[⟨"", [⟨[], 101⟩]⟩]⟩⟩], 0, none⟩⟩

/-- The ledger resolving `txOnlyEmptyPolicy`'s input. -/
def ledgerOnlyEmptyPolicy : Ledger := [("tx6#0", Value.onlyLovelaces 100)]

/-- A family of transactions whose lovelaces balance exactly and that carry,
in addition, an output asset entry with empty name and arbitrary quantity
`q`, and a mint entry with empty policy id and arbitrary quantity `r`. -/
def txSkippedEntries (q r : Int) : Tx :=
  ⟨⟨["tx7#0"],
    [⟨"addr7", ⟨[⟨"", [⟨[], 100⟩]⟩, ⟨polAaa, [⟨[], q⟩]⟩]⟩⟩],
    0,
    some ⟨[⟨"", [⟨[], r⟩]⟩]⟩⟩⟩

/-- The ledger resolving `txSkippedEntries`'s input. -/
def ledgerSkippedEntries : Ledger := [("tx7#0", Value.onlyLovelaces 100)]

/-- A transaction with no inputs and no outputs. -/
def txEmpty : Tx := ⟨⟨[], [], 0, none⟩⟩

/-- The mainnet genesis parameters used by the slot tests (start time in
POSIX milliseconds, one-second slots). -/
def mainnetGenesis : GenesisInfos := ⟨1596059091000, 1000⟩

/-! ## The claims -/

/-- C1 (counterexample): the claimed equivalence — Valid iff the
value-preservation equation holds for every asset id appearing in the
inputs, outputs or mint field — fails on `txEmptyName`: every input
resolves, the code returns Valid, yet the equation is violated at the asset
`(polAaa, "")`, which appears in the output with quantity 5 and nowhere
else. -/
theorem c1_counterexample :
    unresolvedRefs txEmptyName ledgerEmptyName = []
      ∧ (validateValuePreservation txEmptyName ledgerEmptyName).isValid = true
      ∧ specEquationHolds txEmptyName ledgerEmptyName = false := by
  decide

/-- C1 (amended): for every transaction whose inputs all resolve,
`validateValuePreservation` returns Valid iff the equation
`inputs + minted = outputs + burned + (fee for the base currency)` holds for
every asset id of the accumulated maps — the accumulation skipping asset
entries with empty policy id or empty asset name and ignoring any
base-currency component of the mint field. -/
theorem c1_valid_iff_accumulated_equation (tx : Tx) (l : Ledger)
    (h : unresolvedRefs tx l = []) :
    (validateValuePreservation tx l).isValid = true
      ↔ (allAssetIdsOf tx l).all (fun a => balancedAt tx l a) = true := by
  have hm : missingInputsOf tx l = [] := by
    rw [missingInputsOf_eq_unresolved, h]
  rw [validate_eq_loop tx l hm]
  cases hfs : (allAssetIdsOf tx l).findSome?
      (fun a => checkAssetPreservation a (inputAssetsOf tx l)
        (outputAssetsOf tx) (mintPairOf tx).1 (mintPairOf tx).2
        tx.body.fee) with
  | none =>
    simp only [validationSuccess, List.all_eq_true]
    constructor
    · intro _ a ha
      exact (checkAssetPreservation_balanced_iff tx l a).mp
        ((findSome?_eq_none_iff _ _).mp hfs a ha)
    · intro _
      trivial
  | some r =>
    obtain ⟨a, ha, hsome⟩ := exists_of_findSome?_some _ _ _ hfs
    obtain ⟨hr, hne⟩ := checkAssetPreservation_eq_some _ _ _ _ _ _ _ hsome
    constructor
    · intro hv
      rw [hr] at hv
      simp [validationFailure] at hv
    · intro hall
      exfalso
      rw [List.all_eq_true] at hall
      have hb := (checkAssetPreservation_balanced_iff tx l a).mpr (hall a ha)
      rw [hb] at hsome
      cases hsome

/-- C1 (witness): the amended equivalence evaluated on the plain balanced
transfer. -/
theorem c1_witness :
    unresolvedRefs txPlain ledgerPlain = []
      ∧ ((validateValuePreservation txPlain ledgerPlain).isValid = true
          ↔ (allAssetIdsOf txPlain ledgerPlain).all
              (fun a => balancedAt txPlain ledgerPlain a) = true) :=
  ⟨by decide, c1_valid_iff_accumulated_equation txPlain ledgerPlain (by decide)⟩

/-- C2: a transaction minting 50 000 000 lovelaces, with lovelace inputs,
outputs and fee otherwise balanced, is returned Valid: the mint loop skips
the empty-policy (lovelace) entry and never reads the mint field's lovelace
quantity, so the "Cannot mint or burn lovelaces (ADA)" branch cannot fire
and the balanced equation is confirmed — while the specification's equation,
which counts the mint, is violated. -/
theorem c2_balanced_ada_mint_accepted :
    validateValuePreservation txMintAda ledgerMintAda = validationSuccess
      ∧ Option.map Value.lovelaces txMintAda.body.mint = some 50000000
      ∧ specEquationHolds txMintAda ledgerMintAda = false := by
  decide

/-- C3: whenever at least one input fails to resolve, the result is the
missing-input failure carrying every unresolved reference (in input order),
and no per-asset verdict is produced. -/
theorem c3_missing_inputs_failure (tx : Tx) (l : Ledger)
    (h : unresolvedRefs tx l ≠ []) :
    validateValuePreservation tx l
      = validationFailure ErrorMsg.missingInputsMsg
          (some (Details.missingInputs (unresolvedRefs tx l))) := by
  unfold validateValuePreservation
  rw [missingInputsOf_eq_unresolved]
  have hlen : 0 < (unresolvedRefs tx l).length := List.length_pos.mpr h
  simp [hlen]

/-- C3 (witness): the missing-input failure on a transaction with one
unresolved and one resolved input. -/
theorem c3_witness :
    unresolvedRefs txMissing ledgerMissing ≠ []
      ∧ validateValuePreservation txMissing ledgerMissing
          = validationFailure ErrorMsg.missingInputsMsg
              (some (Details.missingInputs (unresolvedRefs txMissing ledgerMissing))) :=
  ⟨by decide, c3_missing_inputs_failure txMissing ledgerMissing (by decide)⟩

/-- C4: every asset-violation failure reports the direction of the imbalance
by the sign of the difference — `destroying` exactly when inputs plus minted
exceed outputs plus burned plus fee, `creating` exactly when the reverse —
and its detail record carries precisely the accumulated quantities the code
compared for that asset. -/
theorem c4_imbalance_direction_reported (tx : Tx) (l : Ledger)
    (dir : Direction) (isAda : Bool) (nm : String) (d : AssetViolationDetail)
    (h : validateValuePreservation tx l
      = validationFailure (ErrorMsg.notPreserved dir isAda nm)
          (some (Details.assetViolation d))) :
    d.leftSide = d.inputAmount + d.mintedAmount
      ∧ d.rightSide = d.outputAmount + d.burnedAmount + d.feeAmount
      ∧ d.difference = d.leftSide - d.rightSide
      ∧ d.difference ≠ 0
      ∧ (dir = Direction.destroying ↔ d.rightSide < d.leftSide)
      ∧ (dir = Direction.creating ↔ d.leftSide < d.rightSide)
      ∧ d.inputAmount = amountAt (inputAssetsOf tx l) d.asset
      ∧ d.outputAmount = amountAt (outputAssetsOf tx) d.asset
      ∧ d.mintedAmount = amountAt (mintPairOf tx).1 d.asset
      ∧ d.burnedAmount = amountAt (mintPairOf tx).2 d.asset
      ∧ d.feeAmount = (if d.asset == "lovelaces" then tx.body.fee else 0) := by
  unfold validateValuePreservation at h
  split at h
  · simp [validationFailure] at h
  · split at h
    · simp [validationFailure] at h
    · split at h
      case _ err heq =>
        obtain ⟨a, ha, hsome⟩ := exists_of_findSome?_some _ _ _ heq
        obtain ⟨hr, hne⟩ := checkAssetPreservation_eq_some _ _ _ _ _ _ _ hsome
        rw [h] at hr
        simp only [validationFailure, ValidationResult.mk.injEq,
          Option.some.injEq, ErrorMsg.notPreserved.injEq,
          Details.assetViolation.injEq, true_and] at hr
        obtain ⟨⟨hdir, _, _⟩, hd⟩ := hr
        subst hd
        refine ⟨rfl, rfl, rfl, sub_ne_zero_of_ne hne, ?_, ?_, rfl, rfl, rfl, rfl, rfl⟩
        · rw [hdir]
          dsimp only
          constructor
          · intro hd'
            by_contra hlt
            have h0 : ¬ 0 < (amountAt (inputAssetsOf tx l) a + amountAt (mintPairOf tx).1 a)
                - (amountAt (outputAssetsOf tx) a + amountAt (mintPairOf tx).2 a
                    + (if a == "lovelaces" then tx.body.fee else 0)) := by omega
            rw [if_neg h0] at hd'
            cases hd'
          · intro hlt
            have h0 : 0 < (amountAt (inputAssetsOf tx l) a + amountAt (mintPairOf tx).1 a)
                - (amountAt (outputAssetsOf tx) a + amountAt (mintPairOf tx).2 a
                    + (if a == "lovelaces" then tx.body.fee else 0)) := by omega
            rw [if_pos h0]
        · rw [hdir]
          dsimp only
          constructor
          · intro hd'
            by_contra hlt
            have h0 : 0 < (amountAt (inputAssetsOf tx l) a + amountAt (mintPairOf tx).1 a)
                - (amountAt (outputAssetsOf tx) a + amountAt (mintPairOf tx).2 a
                    + (if a == "lovelaces" then tx.body.fee else 0)) := by omega
            rw [if_pos h0] at hd'
            cases hd'
          · intro hlt
            have h0 : ¬ 0 < (amountAt (inputAssetsOf tx l) a + amountAt (mintPairOf tx).1 a)
                - (amountAt (outputAssetsOf tx) a + amountAt (mintPairOf tx).2 a
                    + (if a == "lovelaces" then tx.body.fee else 0)) := by omega
            rw [if_neg h0]
      case _ heq =>
        simp [validationSuccess, validationFailure] at h

/-- C4 (witness): the direction report evaluated on a transaction that
silently destroys 10 lovelaces (100 in, 90 out, fee 0). -/
theorem c4_witness :
    validateValuePreservation txDestroys ledgerDestroys
        = validationFailure
            (ErrorMsg.notPreserved Direction.destroying true "ADA")
            (some (Details.assetViolation
              { asset := "lovelaces", inputAmount := 100, outputAmount := 90,
                mintedAmount := 0, burnedAmount := 0, feeAmount := 0,
                leftSide := 100, rightSide := 90, difference := 10 }))
      ∧ ((100:Int) = 100 + 0
          ∧ (90:Int) = 90 + 0 + 0
          ∧ (10:Int) = 100 - 90
          ∧ (10:Int) ≠ 0
          ∧ (Direction.destroying = Direction.destroying ↔ (90:Int) < 100)
          ∧ (Direction.destroying = Direction.creating ↔ (100:Int) < 90)
          ∧ (100:Int) = amountAt (inputAssetsOf txDestroys ledgerDestroys) "lovelaces"
          ∧ (90:Int) = amountAt (outputAssetsOf txDestroys) "lovelaces"
          ∧ (0:Int) = amountAt (mintPairOf txDestroys).1 "lovelaces"
          ∧ (0:Int) = amountAt (mintPairOf txDestroys).2 "lovelaces"
          ∧ (0:Int) = (if ("lovelaces" : String) == "lovelaces"
              then txDestroys.body.fee else 0)) :=
  ⟨by decide,
   c4_imbalance_direction_reported txDestroys ledgerDestroys
     Direction.destroying true "ADA"
     { asset := "lovelaces", inputAmount := 100, outputAmount := 90,
       mintedAmount := 0, burnedAmount := 0, feeAmount := 0,
       leftSide := 100, rightSide := 90, difference := 10 }
     (by decide)⟩

/-- C5 (counterexample): with two violating assets, the code reports the
`polCcc` token — the one first encountered while accumulating the inputs —
although the `polAaa` token also violates preservation and precedes it in
the lexicographic order the claim prescribes. -/
theorem c5_counterexample :
    validateValuePreservation txTwoTokens ledgerTwoTokens
        = validationFailure
            (ErrorMsg.notPreserved Direction.destroying false ccTokenId)
            (some (Details.assetViolation
              { asset := ccTokenId, inputAmount := 5, outputAmount := 0,
                mintedAmount := 0, burnedAmount := 0, feeAmount := 0,
                leftSide := 5, rightSide := 0, difference := 5 }))
      ∧ balancedAt txTwoTokens ledgerTwoTokens aaTokenId = false
      ∧ aaTokenId < ccTokenId := by
  refine ⟨by decide, by decide, ?_⟩
  rw [String.lt_iff_toList_lt]
  decide

/-- C5 (amended): when every input resolves, the asset reported by a
value-preservation failure is the first violating asset id in the loop's
insertion order — the order in which ids were first inserted while
accumulating inputs, then outputs, then minted, then burned quantities. -/
theorem c5_first_violation_insertion_order (tx : Tx) (l : Ledger)
    (a₀ : AssetId)
    (h : unresolvedRefs tx l = [])
    (hfind : (allAssetIdsOf tx l).find?
        (fun a => !(balancedAt tx l a)) = some a₀) :
    reportedAsset? (validateValuePreservation tx l) = some a₀ := by
  have hm : missingInputsOf tx l = [] := by
    rw [missingInputsOf_eq_unresolved, h]
  rw [validate_eq_loop tx l hm]
  have hfind' : (allAssetIdsOf tx l).find?
      (fun a => (checkAssetPreservation a (inputAssetsOf tx l)
        (outputAssetsOf tx) (mintPairOf tx).1 (mintPairOf tx).2
        tx.body.fee).isSome) = some a₀ := by
    rw [find?_congr_pred _ _ (checkAssetPreservation_isSome_eq tx l)]
    exact hfind
  have hfs := findSome?_eq_of_find?_isSome _ _ _ hfind'
  have hba : balancedAt tx l a₀ = false := by
    have hmem := List.find?_some hfind
    revert hmem
    cases balancedAt tx l a₀ <;> simp
  cases hc : checkAssetPreservation a₀ (inputAssetsOf tx l)
      (outputAssetsOf tx) (mintPairOf tx).1 (mintPairOf tx).2
      tx.body.fee with
  | none =>
    have := (checkAssetPreservation_balanced_iff tx l a₀).mp hc
    rw [hba] at this
    cases this
  | some r =>
    obtain ⟨hr, _⟩ := checkAssetPreservation_eq_some _ _ _ _ _ _ _ hc
    rw [hfs, hc, hr]
    rfl

/-- C5 (witness): the insertion-order report evaluated on the two-token
violation. -/
theorem c5_witness :
    reportedAsset? (validateValuePreservation txTwoTokens ledgerTwoTokens)
      = some ccTokenId :=
  c5_first_violation_insertion_order txTwoTokens ledgerTwoTokens ccTokenId
    (by decide) (by decide)

/-- C6: the phase-1 pipeline (modelled from the spec; the Emulator pipeline
is not among the extracted sources) rejects every transaction with zero
inputs or zero outputs, whatever the size/fee/deposit rules decide. -/
theorem c6_structural_rule_rejects
    (sizeFeeDepositRules : Tx → Option ValidationResult) (tx : Tx) (l : Ledger)
    (h : tx.body.inputs = [] ∨ tx.body.outputs = []) :
    (phase1Validate sizeFeeDepositRules tx l).isValid = false := by
  unfold phase1Validate
  have hcond : (tx.body.inputs.length == 0 || tx.body.outputs.length == 0) = true := by
    rcases h with h | h <;> simp [h]
  rw [hcond]
  simp [validationFailure]

/-- C6 (witness): the structural rejection evaluated on the empty
transaction. -/
theorem c6_witness :
    (txEmpty.body.inputs = [] ∨ txEmpty.body.outputs = [])
      ∧ (phase1Validate (fun _ => none) txEmpty []).isValid = false :=
  ⟨Or.inl rfl, c6_structural_rule_rejects (fun _ => none) txEmpty [] (Or.inl rfl)⟩

/-- C7: the minimum fee is `per_byte_fee * serialized_size + fixed_fee`
(modelled from the spec and tests/min-fee.test.ts); the fee rule rejects
exactly when the fee is strictly below that minimum, and a fee equal to the
minimum is accepted. -/
theorem c7_fee_rule_boundary (txFeePerByte txFeeFixed txSize fee : Int) :
    calculateMinFee txFeePerByte txFeeFixed txSize
        = txFeePerByte * txSize + txFeeFixed
      ∧ ((feeRule txFeePerByte txFeeFixed txSize fee).isSome = true
          ↔ fee < calculateMinFee txFeePerByte txFeeFixed txSize)
      ∧ feeRule txFeePerByte txFeeFixed txSize
          (calculateMinFee txFeePerByte txFeeFixed txSize) = none := by
  refine ⟨rfl, ?_, ?_⟩
  · unfold feeRule
    by_cases h : fee < calculateMinFee txFeePerByte txFeeFixed txSize <;> simp [h]
  · unfold feeRule
    simp

/-- C8: converting a slot to POSIX time and back is the identity
(the clock arithmetic is modelled from the spec; the Emulator's slot
conversion is not among the extracted sources). -/
theorem c8_slot_time_roundtrip (g : GenesisInfos) (s : Nat)
    (h : 0 < g.slotLengthMs) :
    timeToSlot g (slotToTime g s) = some s := by
  unfold timeToSlot slotToTime
  have hnonneg : (0:Int) ≤ (s : Int) * g.slotLengthMs :=
    mul_nonneg (Int.natCast_nonneg s) (le_of_lt h)
  rw [if_neg (by omega)]
  have hsub : g.systemStartPosixMs + (s:Int) * g.slotLengthMs
      - g.systemStartPosixMs = (s:Int) * g.slotLengthMs := by ring
  rw [hsub, Int.mul_ediv_cancel _ (ne_of_gt h)]
  simp

/-- C8 (witness): the round trip at slot 42 under the mainnet genesis
parameters (one-second slots). -/
theorem c8_witness :
    0 < mainnetGenesis.slotLengthMs
      ∧ timeToSlot mainnetGenesis (slotToTime mainnetGenesis 42) = some 42 :=
  ⟨by decide, c8_slot_time_roundtrip mainnetGenesis 42 (by decide)⟩

/-- C9 (counterexample): a transaction whose only imbalance lies in
empty-policy entries is NOT returned Valid: every policy entry of its
output has an empty policy id, yet the validator rejects it, because
empty-policy quantities in inputs and outputs are counted as base currency
through the `lovelaces` getter rather than being skipped. -/
theorem c9_counterexample :
    (txOnlyEmptyPolicy.body.outputs.all
        (fun o => o.value.map.all (fun e => e.policy == ""))) = true
      ∧ unresolvedRefs txOnlyEmptyPolicy ledgerOnlyEmptyPolicy = []
      ∧ (validateValuePreservation txOnlyEmptyPolicy
          ledgerOnlyEmptyPolicy).isValid = false := by
  decide

/-- C9 (amended): asset entries with an empty asset name — and, in the mint
field, also entries with an empty policy id — are silently skipped: however
large the quantities `q` (an empty-name output asset) and `r` (an
empty-policy mint entry), the otherwise balanced transaction is returned
Valid. -/
theorem c9_skipped_entries_accepted (q r : Int) :
    validateValuePreservation (txSkippedEntries q r) ledgerSkippedEntries
      = validationSuccess := rfl

/-- C10: the validator always returns a `ValidationResult`, and the result
is valid exactly when it carries no error message. -/
theorem c10_isValid_iff_no_error (tx : Tx) (l : Ledger) :
    (validateValuePreservation tx l).isValid = true
      ↔ (validateValuePreservation tx l).error = none := by
  unfold validateValuePreservation
  split
  · simp [validationFailure]
  · split
    · simp [validationFailure]
    · split
      case _ err heq =>
        obtain ⟨a, ha, hsome⟩ := exists_of_findSome?_some _ _ _ heq
        obtain ⟨hr, _⟩ := checkAssetPreservation_eq_some _ _ _ _ _ _ _ hsome
        rw [hr]
        simp [validationFailure]
      case _ heq =>
        simp [validationSuccess]

end PlutsEmulator
